import Mathlib

/-!
Verification of the socket-based RPC layer (`src/runtime/rpc/rpc_socket_impl.cc`):
the client handshake (`RPCConnect`, `RPCClientConnect`), the socket channel
wrapper (`SockChannel`), the two server-loop entry points (`RPCServerLoop`),
and the out-of-band exception signal (`rpc.ReturnException`).

The wire is modelled as a list of byte values (`List Nat`, each value < 256 for
data the code produces).  32-bit integers travel as four little-endian bytes.
Code from supporting headers that is not part of the analysed sources
(`support/socket.h`, `rpc_endpoint.h`, `rpc_protocol.h`) is modelled from the
specification and marked as such in its doc comment.
-/

namespace RPCSocket

/-- Modelled from the spec: the 32-bit handshake magic constant `kRPCMagic`
(declared in `rpc_protocol.h`, which is not among the analysed sources).
Its exact numeric value is irrelevant to the claims; the spec calls it MAGIC. -/
def kRPCMagic : Nat := 0xff271

/-- Encode a 32-bit integer as four little-endian bytes (the raw-memory
transfer `SendAll(&code, sizeof(code))` on a little-endian host). -/
def encU32 (n : Nat) : List Nat :=
  [n % 256, n / 256 % 256, n / 2 ^ 16 % 256, n / 2 ^ 24 % 256]

/-- Decode four little-endian bytes into a 32-bit integer. -/
def decU32 (b0 b1 b2 b3 : Nat) : Nat :=
  b0 % 256 + 256 * (b1 % 256) + 2 ^ 16 * (b2 % 256) + 2 ^ 24 * (b3 % 256)

/-- Take exactly `n` bytes from the front of a stream; fails when the
stream is shorter (a blocking `RecvAll` that can never complete). -/
def takeExact (n : Nat) (l : List Nat) : Option (List Nat × List Nat) :=
  if n ≤ l.length then some (l.take n, l.drop n) else none

/-- Read a 32-bit integer from the front of a stream. -/
def readU32 (l : List Nat) : Option (Nat × List Nat) :=
  match l with
  | b0 :: b1 :: b2 :: b3 :: rest => some (decU32 b0 b1 b2 b3, rest)
  | _ => none

/-- Observable wire events of the client side of the handshake. -/
inductive Event where
  | sent (bytes : List Nat)
  | recvd (bytes : List Nat)
  | closedSock
  deriving DecidableEq, Repr

/-- Whether an event is a send. -/
def Event.isSent : Event → Bool
  | .sent _ => true
  | _ => false

/-- The ways `RPCConnect` fails (`LOG(FATAL)` branches and `ICHECK` aborts). -/
inductive ConnectError where
  | keyNotFound
  | keyConflict
  | protocolMismatch
  | transportError
  deriving DecidableEq, Repr

/-- The endpoint built on success: `RPCEndpoint::Create(channel, key, remote_key)`
followed by `InitRemoteSession(init_seq)`.  The endpoint internals live in
`rpc_endpoint.cc` (not among the analysed sources); here we record exactly what
the connect path hands to them. -/
structure Endpoint where
  localKey : List Nat
  remoteKey : List Nat
  initSeq : List Nat
  initialized : Bool
  deriving DecidableEq, Repr

deriving instance DecidableEq for Except

/-- Result of a connect attempt: the wire events it performed and the outcome. -/
structure ConnectOut where
  events : List Event
  result : Except ConnectError Endpoint
  deriving DecidableEq, Repr

/-- The handshake bytes the client pushes before reading anything: magic,
key length, then the key bytes — the key send is skipped when `keylen == 0`,
mirroring the `if (keylen != 0)` guard in the source. -/
def handshakeSends (key : List Nat) : List Event :=
  [Event.sent (encU32 kRPCMagic), Event.sent (encU32 key.length)] ++
    (if key.length ≠ 0 then [Event.sent key] else [])

/-- Client-side `RPCConnect` (lines 68–106 of `rpc_socket_impl.cc`): send
magic, key length and key; read the 4-byte response code; branch on
`kRPCMagic+2` / `kRPCMagic+1` / anything else / `kRPCMagic`; on success read
the remote key length and remote key, build the endpoint and forward the
initial argument sequence.  `input` is the byte stream the server sends. -/
def RPCConnect (key : List Nat) (input : List Nat) (initSeq : List Nat) :
    ConnectOut :=
  let sends := handshakeSends key
  match readU32 input with
  | none => { events := sends, result := .error .transportError }
  | some (code, rest) =>
    let evs := sends ++ [Event.recvd (input.take 4)]
    if code = kRPCMagic + 2 then
      { events := evs ++ [Event.closedSock], result := .error .keyNotFound }
    else if code = kRPCMagic + 1 then
      { events := evs ++ [Event.closedSock], result := .error .keyConflict }
    else if code ≠ kRPCMagic then
      { events := evs ++ [Event.closedSock], result := .error .protocolMismatch }
    else
      match readU32 rest with
      | none => { events := evs, result := .error .transportError }
      | some (klen, rest2) =>
        let evs2 := evs ++ [Event.recvd (rest.take 4)]
        if klen ≠ 0 then
          match takeExact klen rest2 with
          | none => { events := evs2, result := .error .transportError }
          | some (rkey, _) =>
            { events := evs2 ++ [Event.recvd rkey],
              result := .ok { localKey := key, remoteKey := rkey,
                              initSeq := initSeq, initialized := true } }
        else
          { events := evs2,
            result := .ok { localKey := key, remoteKey := [],
                            initSeq := initSeq, initialized := true } }

/-- The byte values of the role prefix `"client:"`. -/
def clientTag : List Nat := [0x63, 0x6c, 0x69, 0x65, 0x6e, 0x74, 0x3a]

/-- `RPCClientConnect` (lines 108–112): prepend `"client:"` to the
user-supplied key and connect. -/
def RPCClientConnect (key : List Nat) (input : List Nat) (initSeq : List Nat) :
    ConnectOut :=
  RPCConnect (clientTag ++ key) input initSeq

/-- Modelled from the spec: `TCPSocket::SendAll` (in `support/socket.h`, not
among the analysed sources) — the retry-until-complete loop over the short
send primitive.  `chunk i` is the number of bytes the short primitive accepts
on its i-th invocation (always at least one byte requested transfers at most
the remaining buffer); `fuel` bounds the iterations so the loop is total.
Returns the concatenation of all bytes put on the wire when the loop
completes the whole buffer, `none` when fuel runs out first. -/
def sendAll (chunk : Nat → Nat) (fuel : Nat) (buf : List Nat) :
    Option (List Nat) :=
  match fuel with
  | 0 => if buf = [] then some [] else none
  | f + 1 =>
    if buf = [] then some []
    else
      match sendAll (fun i => chunk (i + 1)) f
          (buf.drop (min (chunk 0) buf.length)) with
      | some s => some (buf.take (min (chunk 0) buf.length) ++ s)
      | none => none

/-- Modelled from the spec: `TCPSocket::RecvAll` — the retry-until-complete
loop over the short receive primitive.  `chunk i` bytes arrive on the i-th
invocation (capped by what is still needed); `fuel` bounds iterations.
Returns the number of chunks consumed as a list of chunk sizes summing to `n`
when it completes. -/
def recvAll (chunk : Nat → Nat) (fuel : Nat) (n : Nat) : Option (List Nat) :=
  match fuel with
  | 0 => if n = 0 then some [] else none
  | f + 1 =>
    if n = 0 then some []
    else
      match recvAll (fun i => chunk (i + 1)) f (n - min (chunk 0) n) with
      | some s => some (min (chunk 0) n :: s)
      | none => none

/-- State of a TCP socket, as far as `SockChannel` teardown observes it:
whether the handle is invalid, whether the validity check or the close call
raises, and whether the close has happened. -/
structure SockState where
  isBad : Bool
  badCheckThrows : Bool
  closeThrows : Bool
  closed : Bool
  deriving DecidableEq, Repr

/-- The body of `~SockChannel` before the catch: `if (!sock_.BadSocket())
sock_.Close();`, where both `BadSocket` and `Close` may throw. -/
def sockChannelDtorBody (s : SockState) : Except Unit SockState :=
  if s.badCheckThrows then .error ()
  else if !s.isBad then
    if s.closeThrows then .error () else .ok { s with closed := true }
  else .ok s

/-- `~SockChannel` (lines 40–48): run the close attempt inside
`try { ... } catch (...) {}` — any exception is discarded and the state at
the point of the throw is kept. -/
def sockChannelDtor (s : SockState) : SockState :=
  match sockChannelDtorBody s with
  | .ok s2 => s2
  | .error _ => s

/-- `SockChannel::Send` (lines 49–55): forward to `sock_.Send`, raise
`Socket::Error("SockChannel::Send")` when it returned -1, otherwise return
the transferred byte count.  `n` is the value the underlying socket
primitive returned. -/
def sockChannelSend (n : Int) : Except String Nat :=
  if n = -1 then .error "SockChannel::Send" else .ok n.toNat

/-- `SockChannel::Recv` (lines 56–62): same shape as `sockChannelSend`. -/
def sockChannelRecv (n : Int) : Except String Nat :=
  if n = -1 then .error "SockChannel::Recv" else .ok n.toNat

/-- How the owning endpoint classifies the outcome of a channel operation. -/
inductive ChannelOutcome where
  | terminal
  | transferred (k : Nat)
  deriving DecidableEq, Repr

/-- Modelled from the spec: the owning Endpoint (in `rpc_endpoint.cc`, not
among the analysed sources) treats a raised transport fault and a returned 0
(orderly peer shutdown) as terminal for the connection, and any positive
count as data transferred. -/
def endpointClassify (r : Except String Nat) : ChannelOutcome :=
  match r with
  | .error _ => .terminal
  | .ok 0 => .terminal
  | .ok (k + 1) => .transferred (k + 1)

/-- Modelled from the spec: the marker opening an exception frame (the
`RPCCode::kException` tag written by `RPCReference::ReturnException` in
`rpc_protocol.h`, not among the analysed sources), as its four wire bytes. -/
def excMarker : List Nat := encU32 12

/-- Modelled from the spec: `RPCReference::ReturnException` writes a single
exception frame — marker plus length-prefixed text — onto the raw stream. -/
def exceptionFrame (msg : List Nat) : List Nat :=
  excMarker ++ (encU32 msg.length ++ msg)

/-- The `rpc.ReturnException` registered function (lines 170–177): wrap the
raw descriptor in a `SimpleSockHandler` and delegate to
`RPCReference::ReturnException`; the bytes on the wire are the frame. -/
def rpcReturnException (msg : List Nat) : List Nat :=
  exceptionFrame msg

/-- Modelled from the spec: the receiving side recognizes the marker and
decodes the length-prefixed text into the error message. -/
def decodeExceptionFrame (w : List Nat) : Option (List Nat) :=
  if w.take 4 = excMarker then
    match readU32 (w.drop 4) with
    | some (len, rest) =>
      match takeExact len rest with
      | some (msg, _) => some msg
      | none => none
    | none => none
  else none

/-- The two channel variants a server loop can be started over. -/
inductive ChannelVariant where
  | sock (fd : Int)
  | callback (fsend frecv : Nat)
  deriving DecidableEq, Repr

/-- What an entry point does after wrapping its transport: the endpoint
configuration handed to `RPCEndpoint::Create` and the blocking action run
on it.  `ServerLoop` itself lives in `rpc_endpoint.cc` (not among the
analysed sources); both entry points invoke that one routine. -/
structure ServerRun where
  channel : ChannelVariant
  localKey : List Nat
  remoteKey : List Nat
  deriving DecidableEq, Repr

/-- The byte values of the fixed server-loop identity key `"SockServerLoop"`. -/
def sockServerLoopKey : List Nat :=
  [0x53, 0x6f, 0x63, 0x6b, 0x53, 0x65, 0x72, 0x76, 0x65, 0x72, 0x4c, 0x6f,
   0x6f, 0x70]

/-- Modelled from the spec: `RPCEndpoint::Create(channel, lk, rk)->ServerLoop()`
— record the channel and keys, then run the (single, shared) blocking loop. -/
def serverLoopRun (ch : ChannelVariant) (lk rk : List Nat) : ServerRun :=
  { channel := ch, localKey := lk, remoteKey := rk }

/-- `RPCServerLoop(int sockfd)` (lines 115–118): wrap the descriptor in a
`SockChannel` and run the server loop with keys `"SockServerLoop"` and `""`. -/
def RPCServerLoopSock (sockfd : Int) : ServerRun :=
  serverLoopRun (.sock sockfd) sockServerLoopKey []

/-- `RPCServerLoop(fsend, frecv)` (lines 120–123): wrap the callback pair in
a `CallbackChannel` and run the same loop with the same keys. -/
def RPCServerLoopCallback (fsend frecv : Nat) : ServerRun :=
  serverLoopRun (.callback fsend frecv) sockServerLoopKey []

/-- The argument the registered `rpc.ServerLoop` dispatcher receives: either
an integer descriptor or a pair of functions. -/
inductive ServerLoopArg where
  | fd (x : Int)
  | fns (fsend frecv : Nat)
  deriving DecidableEq, Repr

/-- The `rpc.ServerLoop` registered function (lines 136–142): dispatch on the
argument kind to one of the two entry points. -/
def rpcServerLoopPacked : ServerLoopArg → ServerRun
  | .fd x => RPCServerLoopSock x
  | .fns a b => RPCServerLoopCallback a b

/-! ### Helper lemmas -/

theorem decU32_encodes (n : Nat) :
    decU32 (n % 256) (n / 256 % 256) (n / 2 ^ 16 % 256) (n / 2 ^ 24 % 256)
      = n % 2 ^ 32 := by
  unfold decU32
  omega

theorem readU32_enc (n : Nat) (l : List Nat) :
    readU32 (encU32 n ++ l) = some (n % 2 ^ 32, l) := by
  show some (decU32 (n % 256) (n / 256 % 256) (n / 2 ^ 16 % 256)
    (n / 2 ^ 24 % 256), l) = some (n % 2 ^ 32, l)
  rw [decU32_encodes]

theorem take4_enc (n : Nat) (l : List Nat) : (encU32 n ++ l).take 4 = encU32 n :=
  rfl

theorem takeExact_append (l rest : List Nat) :
    takeExact l.length (l ++ rest) = some (l, rest) := by
  unfold takeExact
  rw [if_pos (by simp)]
  simp

theorem kRPCMagic_lt : kRPCMagic < 2 ^ 32 := by decide

theorem kRPCMagic_mod : kRPCMagic % 2 ^ 32 = kRPCMagic :=
  Nat.mod_eq_of_lt kRPCMagic_lt

theorem takeExact_self (l : List Nat) : takeExact l.length l = some (l, []) := by
  unfold takeExact
  simp

theorem tailRecvHead (x : List Nat) (restEvents : List Event) :
    ∀ b t2, (Event.recvd x :: restEvents) = Event.recvd b :: t2 → b = x := by
  intro b t2 h
  injection h with h1 _
  injection h1 with h1
  exact h1.symm

/-- `SendAll` completes the whole buffer whenever every underlying short send
makes progress and the fuel covers the buffer length. -/
theorem sendAll_complete :
    ∀ (fuel : Nat) (chunk : Nat → Nat) (buf : List Nat),
      (∀ i, 0 < chunk i) → buf.length ≤ fuel →
      sendAll chunk fuel buf = some buf := by
  intro fuel
  induction fuel with
  | zero =>
    intro chunk buf _ hlen
    have hb : buf = [] := List.eq_nil_of_length_eq_zero (Nat.le_zero.mp hlen)
    subst hb
    rfl
  | succ f ih =>
    intro chunk buf hpos hlen
    by_cases hb : buf = []
    · subst hb
      rfl
    · have hlb : 0 < buf.length := List.length_pos.mpr hb
      have hk : 0 < min (chunk 0) buf.length := lt_min (hpos 0) hlb
      have hdrop : (buf.drop (min (chunk 0) buf.length)).length ≤ f := by
        rw [List.length_drop]
        omega
      rw [sendAll, if_neg hb,
        ih (fun i => chunk (i + 1)) _ (fun i => hpos (i + 1)) hdrop]
      simp [List.take_append_drop]

/-- `RecvAll` completes the requested byte count whenever every underlying
short receive makes progress and the fuel covers the count. -/
theorem recvAll_complete :
    ∀ (fuel : Nat) (chunk : Nat → Nat) (n : Nat),
      (∀ i, 0 < chunk i) → n ≤ fuel →
      ∃ s, recvAll chunk fuel n = some s ∧ s.sum = n := by
  intro fuel
  induction fuel with
  | zero =>
    intro chunk n _ hlen
    have hn : n = 0 := Nat.le_zero.mp hlen
    subst hn
    exact ⟨[], rfl, rfl⟩
  | succ f ih =>
    intro chunk n hpos hlen
    by_cases hn : n = 0
    · subst hn
      exact ⟨[], rfl, rfl⟩
    · have hk : 0 < min (chunk 0) n := lt_min (hpos 0) (Nat.pos_of_ne_zero hn)
      obtain ⟨s, hs, hsum⟩ :=
        ih (fun i => chunk (i + 1)) (n - min (chunk 0) n)
          (fun i => hpos (i + 1)) (by omega)
      refine ⟨min (chunk 0) n :: s, ?_, ?_⟩
      · rw [recvAll, if_neg hn, hs]
      · simp only [List.sum_cons, hsum]
        omega

/-- Every run of `RPCConnect` opens with exactly the handshake sends; whatever
follows contains no further send, and the first receive (when one happens)
is the 4-byte response code. -/
theorem rpcConnect_events_shape (key input init : List Nat) :
    ∃ tail, (RPCConnect key input init).events = handshakeSends key ++ tail ∧
      (∀ e ∈ tail, e.isSent = false) ∧
      (∀ b t2, tail = Event.recvd b :: t2 → b = input.take 4) := by
  unfold RPCConnect
  rcases hin : readU32 input with _ | ⟨code, rest⟩ <;> simp only [hin]
  · exact ⟨[], by simp, by simp, by simp⟩
  · by_cases h2 : code = kRPCMagic + 2
    · rw [if_pos h2]
      exact ⟨[Event.recvd (input.take 4), Event.closedSock],
        by simp, by simp [Event.isSent], tailRecvHead _ _⟩
    · rw [if_neg h2]
      by_cases h1 : code = kRPCMagic + 1
      · rw [if_pos h1]
        exact ⟨[Event.recvd (input.take 4), Event.closedSock],
          by simp, by simp [Event.isSent], tailRecvHead _ _⟩
      · rw [if_neg h1]
        by_cases hne : code ≠ kRPCMagic
        · rw [if_pos hne]
          exact ⟨[Event.recvd (input.take 4), Event.closedSock],
            by simp, by simp [Event.isSent], tailRecvHead _ _⟩
        · rw [if_neg hne]
          rcases hr : readU32 rest with _ | ⟨klen, rest2⟩ <;> simp only [hr]
          · exact ⟨[Event.recvd (input.take 4)],
              by simp, by simp [Event.isSent], tailRecvHead _ _⟩
          · by_cases hk : klen ≠ 0
            · rw [if_pos hk]
              rcases ht : takeExact klen rest2 with _ | ⟨rkey, rem⟩ <;>
                simp only [ht]
              · exact ⟨[Event.recvd (input.take 4), Event.recvd (rest.take 4)],
                  by simp, by simp [Event.isSent], tailRecvHead _ _⟩
              · exact ⟨[Event.recvd (input.take 4), Event.recvd (rest.take 4),
                  Event.recvd rkey],
                  by simp, by simp [Event.isSent], tailRecvHead _ _⟩
            · rw [if_neg hk]
              exact ⟨[Event.recvd (input.take 4), Event.recvd (rest.take 4)],
                by simp, by simp [Event.isSent], tailRecvHead _ _⟩

/-- Whenever `RPCConnect` returns an endpoint, its local key is the key that
was passed in, and the initial argument sequence was forwarded. -/
theorem rpcConnect_ok_fields (key input init : List Nat) (e : Endpoint)
    (h : (RPCConnect key input init).result = .ok e) :
    e.localKey = key ∧ e.initSeq = init ∧ e.initialized = true := by
  unfold RPCConnect at h
  rcases hin : readU32 input with _ | ⟨code, rest⟩ <;> simp only [hin] at h
  · simp at h
  · split_ifs at h with h2 h1 hne
    all_goals try simp at h
    all_goals
      rcases hr : readU32 rest with _ | ⟨klen, rest2⟩ <;> simp only [hr] at h
    all_goals try simp at h
    all_goals split_ifs at h with hk
    all_goals
      try (rcases ht : takeExact klen rest2 with _ | ⟨rkey, rem⟩ <;>
        simp only [ht] at h)
    all_goals try simp at h
    all_goals
      subst h
      exact ⟨rfl, rfl, rfl⟩

/-- On a magic reply followed by the advertised key, the connect path
succeeds, recording both keys and forwarding the init sequence, with the
two length reads and the key-byte read visible in the trace. -/
theorem rpcConnect_magic_reply (key init rk rest : List Nat)
    (h : rk.length < 2 ^ 32) :
    (RPCConnect key (encU32 kRPCMagic ++ (encU32 rk.length ++ (rk ++ rest)))
        init).result
      = .ok { localKey := key, remoteKey := rk, initSeq := init,
              initialized := true } ∧
    (RPCConnect key (encU32 kRPCMagic ++ (encU32 rk.length ++ (rk ++ rest)))
        init).events
      = handshakeSends key ++
        [Event.recvd (encU32 kRPCMagic), Event.recvd (encU32 rk.length)] ++
        (if rk.length ≠ 0 then [Event.recvd rk] else []) := by
  unfold RPCConnect
  rw [readU32_enc, kRPCMagic_mod]
  simp only [take4_enc]
  rw [if_neg (by omega), if_neg (by omega), if_neg (by omega),
    readU32_enc, Nat.mod_eq_of_lt h]
  by_cases hrk : rk.length ≠ 0
  · simp [hrk, takeExact_append, List.append_assoc]
  · have hnil : rk = [] := List.length_eq_zero.mp (by omega)
    subst hnil
    simp

/-! ### C1: successful handshake -/

/-- C1.  When the server answers the handshake with `kRPCMagic` followed by
its key length and key bytes, `RPCConnect` reads the length and then the key
bytes fully, returns an endpoint recording the local key and the received
remote key, and forwards the initial argument sequence as the connection-time
initialization call; the observed peer key equals the key the server sent. -/
theorem connect_success_peer_key (key init rk rest : List Nat)
    (h : rk.length < 2 ^ 32) :
    (RPCConnect key (encU32 kRPCMagic ++ (encU32 rk.length ++ (rk ++ rest)))
        init).result
      = .ok { localKey := key, remoteKey := rk, initSeq := init,
              initialized := true } ∧
    (RPCConnect key (encU32 kRPCMagic ++ (encU32 rk.length ++ (rk ++ rest)))
        init).events
      = handshakeSends key ++
        [Event.recvd (encU32 kRPCMagic), Event.recvd (encU32 rk.length)] ++
        (if rk.length ≠ 0 then [Event.recvd rk] else []) :=
  rpcConnect_magic_reply key init rk rest h

/-- Witness for C1 at a concrete server stream. -/
theorem connect_success_peer_key_witness :
    ([7, 8] : List Nat).length < 2 ^ 32 ∧
    (RPCConnect [1] (encU32 kRPCMagic ++ (encU32 2 ++ ([7, 8] ++ []))) [5]).result
      = .ok { localKey := [1], remoteKey := [7, 8], initSeq := [5],
              initialized := true } :=
  ⟨by decide, (connect_success_peer_key [1] [5] [7, 8] [] (by decide)).1⟩

/-! ### C2: handshake rejection codes -/

/-- C2.  For every 4-byte response code other than `kRPCMagic`, the connect
path closes the transport and fails, distinguishably by code: `kRPCMagic+2`
gives KeyNotFound, `kRPCMagic+1` gives KeyConflict, and any other non-magic
value gives ProtocolMismatch. -/
theorem connect_error_codes (key init rest : List Nat) (c : Nat)
    (hc : c < 2 ^ 32) (hne : c ≠ kRPCMagic) :
    Event.closedSock ∈ (RPCConnect key (encU32 c ++ rest) init).events ∧
    (RPCConnect key (encU32 c ++ rest) init).result =
      .error (if c = kRPCMagic + 2 then ConnectError.keyNotFound
        else if c = kRPCMagic + 1 then ConnectError.keyConflict
        else ConnectError.protocolMismatch) := by
  unfold RPCConnect
  rw [readU32_enc, Nat.mod_eq_of_lt hc]
  by_cases h2 : c = kRPCMagic + 2
  · simp [h2]
  · by_cases h1 : c = kRPCMagic + 1
    · simp [h2, h1]
    · simp [h2, h1, hne]

/-- Witness for C2: an arbitrary wrong code yields ProtocolMismatch with the
socket closed. -/
theorem connect_error_codes_witness :
    Event.closedSock ∈
      (RPCConnect [1] (encU32 (kRPCMagic + 5) ++ [9]) []).events ∧
    (RPCConnect [1] (encU32 (kRPCMagic + 5) ++ [9]) []).result =
      .error ConnectError.protocolMismatch := by
  have h := connect_error_codes [1] [] [9] (kRPCMagic + 5) (by decide) (by decide)
  refine ⟨h.1, ?_⟩
  rw [h.2]
  decide

/-! ### C3: send order and full transfer -/

/-- C3.  The client first sends, in order, the 32-bit magic, the 32-bit key
length, and the key bytes; nothing else is sent, and the first receive — which
everything else waits on — is the 4-byte response code.  Each transfer uses
the retry-until-complete loops, which always move the entire buffer when the
underlying short operations make progress. -/
theorem connect_sends_before_reads (key input init : List Nat) :
    (∃ tail,
      (RPCConnect key input init).events =
        [Event.sent (encU32 kRPCMagic), Event.sent (encU32 key.length)] ++
          ((if key.length ≠ 0 then [Event.sent key] else []) ++ tail) ∧
      (∀ e ∈ tail, e.isSent = false) ∧
      (∀ b t2, tail = Event.recvd b :: t2 → b = input.take 4)) ∧
    (∀ (chunk : Nat → Nat) (buf : List Nat), (∀ i, 0 < chunk i) →
      sendAll chunk buf.length buf = some buf) ∧
    (∀ (chunk : Nat → Nat) (n : Nat), (∀ i, 0 < chunk i) →
      ∃ s, recvAll chunk n n = some s ∧ s.sum = n) := by
  refine ⟨?_, ?_, ?_⟩
  · obtain ⟨tail, ht, hs, hr⟩ := rpcConnect_events_shape key input init
    refine ⟨tail, ?_, hs, hr⟩
    rw [ht]
    simp [handshakeSends]
  · intro chunk buf hpos
    exact sendAll_complete buf.length chunk buf hpos (le_refl _)
  · intro chunk n hpos
    exact recvAll_complete n chunk n hpos (le_refl _)

/-- Witness for C3: the inner progress hypotheses discharged at one-byte
chunks on a concrete buffer. -/
theorem connect_sends_before_reads_witness :
    sendAll (fun _ => 1) 3 [4, 5, 6] = some [4, 5, 6] ∧
    (RPCConnect [7] [] []).events =
      [Event.sent (encU32 kRPCMagic), Event.sent (encU32 1),
        Event.sent [7]] := by
  obtain ⟨hshape, hsend, -⟩ := connect_sends_before_reads [7] [] []
  refine ⟨?_, ?_⟩
  · have := hsend (fun _ => 1) [4, 5, 6] (fun _ => Nat.one_pos)
    simpa using this
  · decide

/-! ### C4: exception-frame round trip -/

/-- C4.  `rpc.ReturnException` emits one exception frame — marker plus
length-prefixed text — and decoding it recovers exactly the original
message. -/
theorem return_exception_roundtrip (msg : List Nat)
    (h : msg.length < 2 ^ 32) :
    decodeExceptionFrame (rpcReturnException msg) = some msg := by
  have h1 : (excMarker ++ (encU32 msg.length ++ msg)).take 4 = excMarker := rfl
  have h2 : (excMarker ++ (encU32 msg.length ++ msg)).drop 4 =
      encU32 msg.length ++ msg := rfl
  simp only [rpcReturnException, exceptionFrame, decodeExceptionFrame, h1, h2,
    readU32_enc, Nat.mod_eq_of_lt h, takeExact_self, if_pos]

/-- Witness for C4 on the message `"overflow"`. -/
theorem return_exception_roundtrip_witness :
    ([111, 118, 101, 114, 102, 108, 111, 119] : List Nat).length < 2 ^ 32 ∧
    decodeExceptionFrame
        (rpcReturnException [111, 118, 101, 114, 102, 108, 111, 119]) =
      some [111, 118, 101, 114, 102, 108, 111, 119] :=
  ⟨by decide, return_exception_roundtrip _ (by decide)⟩

/-! ### C5: best-effort channel teardown -/

/-- C5.  `~SockChannel` is a total function on socket states — teardown never
propagates an error on any exit path.  It either leaves the state untouched
(error discarded, or socket already invalid) or marks the socket closed;
it closes only when the socket was not already invalid; and when nothing
throws and the socket is valid, the close does happen. -/
theorem sockchannel_dtor_best_effort (s : SockState) :
    (sockChannelDtor s = s ∨ sockChannelDtor s = { s with closed := true }) ∧
    (s.isBad = true → sockChannelDtor s = s) ∧
    ((sockChannelDtor s).closed = true → s.closed = true ∨ s.isBad = false) ∧
    (s.badCheckThrows = true → sockChannelDtor s = s) ∧
    (s.badCheckThrows = false → s.closeThrows = false → s.isBad = false →
      (sockChannelDtor s).closed = true) := by
  obtain ⟨b1, b2, b3, b4⟩ := s
  cases b1 <;> cases b2 <;> cases b3 <;> cases b4 <;>
    simp [sockChannelDtor, sockChannelDtorBody]

/-- Witness for C5: a valid, non-throwing socket gets closed. -/
theorem sockchannel_dtor_best_effort_witness :
    (sockChannelDtor
        { isBad := false, badCheckThrows := false, closeThrows := false,
          closed := false }).closed = true :=
  (sockchannel_dtor_best_effort _).2.2.2.2 rfl rfl rfl

/-! ### C6: short channel operations -/

/-- C6.  `SockChannel::Send`/`Recv` return however many bytes the socket
actually moved (possibly fewer than requested); a `-1` from the socket is
raised as a transport-fault error rather than returned; and the owning
endpoint treats both the raised fault and a returned 0 (orderly shutdown)
as terminal.  `n` is what the underlying socket primitive returned for a
request of `size` bytes. -/
theorem sockchannel_short_ops (size : Nat) (n : Int)
    (hlo : -1 ≤ n) (hhi : n ≤ (size : Int)) :
    (n = -1 → sockChannelSend n = .error "SockChannel::Send" ∧
      sockChannelRecv n = .error "SockChannel::Recv" ∧
      endpointClassify (sockChannelSend n) = .terminal ∧
      endpointClassify (sockChannelRecv n) = .terminal) ∧
    (0 ≤ n → sockChannelSend n = .ok n.toNat ∧
      sockChannelRecv n = .ok n.toNat ∧ n.toNat ≤ size) ∧
    (n = 0 → endpointClassify (sockChannelRecv n) = .terminal) ∧
    (0 < n → endpointClassify (sockChannelRecv n) = .transferred n.toNat) := by
  refine ⟨?_, ?_, ?_, ?_⟩
  · intro h
    subst h
    exact ⟨rfl, rfl, rfl, rfl⟩
  · intro h
    have hne : n ≠ -1 := by omega
    refine ⟨by simp [sockChannelSend, hne], by simp [sockChannelRecv, hne], ?_⟩
    omega
  · intro h
    subst h
    rfl
  · intro h
    have hne : n ≠ -1 := by omega
    obtain ⟨k, hk⟩ : ∃ k, n.toNat = k + 1 := ⟨n.toNat - 1, by omega⟩
    simp [sockChannelRecv, hne, endpointClassify, hk]

/-- Witness for C6 at a transfer of 2 bytes out of a 3-byte request. -/
theorem sockchannel_short_ops_witness :
    sockChannelSend 2 = .ok 2 ∧ sockChannelRecv 2 = .ok 2 ∧ (2 : Nat) ≤ 3 :=
  (sockchannel_short_ops 3 2 (by decide) (by decide)).2.1 (by decide)

/-! ### C7: the two server-loop entry points -/

/-- C7.  The two server-loop entry points wrap their input in the socket and
callback channel variants respectively, and are otherwise identical: same
local key, same remote key, same (single) blocking loop entered through
`serverLoopRun`; the registered dispatcher reaches exactly these two. -/
theorem server_loops_equivalent (fd : Int) (fs fr : Nat) :
    (RPCServerLoopSock fd).channel = ChannelVariant.sock fd ∧
    (RPCServerLoopCallback fs fr).channel = ChannelVariant.callback fs fr ∧
    (RPCServerLoopSock fd).localKey = (RPCServerLoopCallback fs fr).localKey ∧
    (RPCServerLoopSock fd).remoteKey =
      (RPCServerLoopCallback fs fr).remoteKey ∧
    (∀ a : ServerLoopArg,
      (∃ x, rpcServerLoopPacked a = RPCServerLoopSock x) ∨
      ∃ p q, rpcServerLoopPacked a = RPCServerLoopCallback p q) := by
  refine ⟨rfl, rfl, rfl, rfl, ?_⟩
  intro a
  cases a with
  | fd x => exact Or.inl ⟨x, rfl⟩
  | fns p q => exact Or.inr ⟨p, q, rfl⟩

/-- Witness for C7 at concrete inputs. -/
theorem server_loops_equivalent_witness :
    (RPCServerLoopSock 3).channel = ChannelVariant.sock 3 ∧
    (RPCServerLoopSock 3).localKey = (RPCServerLoopCallback 1 2).localKey :=
  ⟨(server_loops_equivalent 3 1 2).1, (server_loops_equivalent 3 1 2).2.2.1⟩

/-! ### C8: the client role prefix -/

/-- C8.  The client-session connect surface sends exactly the string
`"client:"` followed by the user key as its identity key: that is the key
byte sequence on the wire, and the key any returned endpoint records. -/
theorem client_connect_role_tag (key input init : List Nat) :
    (∃ tail, (RPCClientConnect key input init).events =
        Event.sent (encU32 kRPCMagic) ::
          Event.sent (encU32 (clientTag ++ key).length) ::
          Event.sent (clientTag ++ key) :: tail) ∧
    (∀ e : Endpoint, (RPCClientConnect key input init).result = .ok e →
      e.localKey = clientTag ++ key) := by
  constructor
  · obtain ⟨tail, ht, -, -⟩ :=
      rpcConnect_events_shape (clientTag ++ key) input init
    refine ⟨tail, ?_⟩
    show (RPCConnect (clientTag ++ key) input init).events = _
    rw [ht]
    simp [handshakeSends, clientTag]
  · intro e he
    exact (rpcConnect_ok_fields (clientTag ++ key) input init e he).1

/-- Witness for C8: a successful connect with user key `"a"` records local
key `"client:a"`. -/
theorem client_connect_role_tag_witness :
    ∃ e : Endpoint,
      (RPCClientConnect [97] (encU32 kRPCMagic ++ (encU32 0 ++ [])) []).result
        = .ok e ∧ e.localKey = clientTag ++ [97] := by
  refine ⟨⟨clientTag ++ [97], [], [], true⟩, by decide, ?_⟩
  exact (client_connect_role_tag [97]
    (encU32 kRPCMagic ++ (encU32 0 ++ [])) []).2 _ (by decide)

/-! ### C9: empty keys on either side -/

/-- C9.  With an empty local key the client sends only the magic and the zero
length, no key bytes; and when the server announces key length zero, no
remote key bytes are read and the endpoint records the empty remote key. -/
theorem connect_empty_keys (key input init rest : List Nat) :
    (∃ tail, (RPCConnect [] input init).events =
        [Event.sent (encU32 kRPCMagic), Event.sent (encU32 0)] ++ tail ∧
        ∀ e ∈ tail, e.isSent = false) ∧
    (RPCConnect key (encU32 kRPCMagic ++ (encU32 0 ++ rest)) init).result =
      .ok { localKey := key, remoteKey := [], initSeq := init,
            initialized := true } ∧
    (RPCConnect key (encU32 kRPCMagic ++ (encU32 0 ++ rest)) init).events =
      handshakeSends key ++
        [Event.recvd (encU32 kRPCMagic), Event.recvd (encU32 0)] := by
  refine ⟨?_, ?_, ?_⟩
  · obtain ⟨tail, ht, hs, -⟩ := rpcConnect_events_shape [] input init
    exact ⟨tail, by simpa [handshakeSends] using ht, hs⟩
  · have h := (rpcConnect_magic_reply key init [] rest (by decide)).1
    simpa using h
  · have h := (rpcConnect_magic_reply key init [] rest (by decide)).2
    simpa using h

/-- Witness for C9: the concrete trace of an empty-key connect against a
zero-length server key. -/
theorem connect_empty_keys_witness :
    (RPCConnect [] (encU32 kRPCMagic ++ (encU32 0 ++ [])) []).events =
      [Event.sent (encU32 kRPCMagic), Event.sent (encU32 0),
        Event.recvd (encU32 kRPCMagic), Event.recvd (encU32 0)] := by
  have h := (connect_empty_keys [] (encU32 kRPCMagic ++ (encU32 0 ++ []))
    [] []).2.2
  simpa [handshakeSends] using h

/-! ### C10: fixed server-loop identity -/

/-- C10.  Both server-loop entry points hand `RPCEndpoint::Create` the fixed
local key `"SockServerLoop"` and the empty remote key, whatever their input;
so does everything reachable from the registered dispatcher. -/
theorem server_loop_fixed_keys (fd : Int) (fs fr : Nat) :
    (RPCServerLoopSock fd).localKey = sockServerLoopKey ∧
    (RPCServerLoopSock fd).remoteKey = [] ∧
    (RPCServerLoopCallback fs fr).localKey = sockServerLoopKey ∧
    (RPCServerLoopCallback fs fr).remoteKey = [] ∧
    (∀ a : ServerLoopArg,
      (rpcServerLoopPacked a).localKey = sockServerLoopKey ∧
      (rpcServerLoopPacked a).remoteKey = []) := by
  refine ⟨rfl, rfl, rfl, rfl, ?_⟩
  intro a
  cases a <;> exact ⟨rfl, rfl⟩

/-- Witness for C10 at concrete inputs. -/
theorem server_loop_fixed_keys_witness :
    (RPCServerLoopSock 7).localKey = sockServerLoopKey ∧
    (RPCServerLoopCallback 1 2).remoteKey = [] :=
  ⟨(server_loop_fixed_keys 7 1 2).1, (server_loop_fixed_keys 7 1 2).2.2.2.1⟩

end RPCSocket
